import Mathlib

/-!
Verification development for the animated-camera subsystem of the
CG-Cameras repository.  The authoritative source is the vector-variant
camera class (the unnamed header, `class Camera` with `Front` stored as a
vector); the yaw/pitch variant (`includes/learnopengl/camera.h`) is
embedded in the `YP` namespace where a claim refers to it.

Modelling conventions:
* C++ `float` scalars are embedded as exact rationals (`ℚ`).  The single
  place where IEEE-754 semantics differ observably from field arithmetic
  inside the claims is division by a zero denominator in the progress
  fraction; the `FP` type mirrors the float quotient there (finite value,
  signed infinity, or NaN) together with the `>= 1` comparison that the
  step functions perform on the quotient.
* Transcendental glm calls (`cos`/`sin` inside `glm::rotate`,
  `glm::normalize`, `glm::orientedAngle`) have no rational value; they are
  passed in as oracle functions (`Oracles`), and theorems that need their
  defining properties take those properties as hypotheses (for instance
  `c ^ 2 + s ^ 2 = 1` for the cosine/sine pair of an angle, or `isNrmOf`
  for the result of a normalization).
* `glfwGetTime()` is an external clock; the sampled time is the `now`
  argument of `ProcessTransformations` / `GetViewMatrix`.
-/

/-- Result of a C++ float division `a / b` restricted to the cases that can
occur in the progress-fraction computation on finite operands: a finite
quotient, a signed infinity, or NaN (for `0 / 0`). -/
inductive FP where
  | fin (q : ℚ)
  | pinf
  | ninf
  | nan
deriving DecidableEq

/-- IEEE-754 division of two finite scalars, as used for the progress
fraction: a zero denominator yields NaN (when the numerator is zero too) or
a signed infinity. -/
def fdiv (a b : ℚ) : FP :=
  if b = 0 then (if a = 0 then .nan else if 0 < a then .pinf else .ninf)
  else .fin (a / b)

/-- The comparison `percentage >= 1` that every step function performs:
`+inf >= 1` holds, while NaN and `-inf` compare false. -/
def FP.ge1 : FP → Bool
  | .fin q => decide (1 ≤ q)
  | .pinf => true
  | .ninf => false
  | .nan => false

/-- Finite value of an `FP` quotient.  Non-finite quotients (possible only
for zero-duration commands, where IEEE arithmetic would poison the
interpolated pose with NaN) are mapped to the junk value `0`; no claim
inspects the pose produced from a non-finite unclamped quotient. -/
def FP.toQ : FP → ℚ
  | .fin q => q
  | _ => 0

/-- The progress fraction `(now - t0) / (t1 - t0)` shared by all six step
functions. -/
def pctF (now t0 t1 : ℚ) : FP := fdiv (now - t0) (t1 - t0)

/-- glm::vec3 over exact rationals. -/
@[ext]
structure Vec3 where
  x : ℚ
  y : ℚ
  z : ℚ
deriving DecidableEq

instance : Add Vec3 := ⟨fun a b => ⟨a.x + b.x, a.y + b.y, a.z + b.z⟩⟩
instance : Sub Vec3 := ⟨fun a b => ⟨a.x - b.x, a.y - b.y, a.z - b.z⟩⟩
instance : Neg Vec3 := ⟨fun a => ⟨-a.x, -a.y, -a.z⟩⟩
instance : SMul ℚ Vec3 := ⟨fun q v => ⟨q * v.x, q * v.y, q * v.z⟩⟩

@[simp] theorem Vec3.add_x (a b : Vec3) : (a + b).x = a.x + b.x := rfl
@[simp] theorem Vec3.add_y (a b : Vec3) : (a + b).y = a.y + b.y := rfl
@[simp] theorem Vec3.add_z (a b : Vec3) : (a + b).z = a.z + b.z := rfl
@[simp] theorem Vec3.sub_x (a b : Vec3) : (a - b).x = a.x - b.x := rfl
@[simp] theorem Vec3.sub_y (a b : Vec3) : (a - b).y = a.y - b.y := rfl
@[simp] theorem Vec3.sub_z (a b : Vec3) : (a - b).z = a.z - b.z := rfl
@[simp] theorem Vec3.neg_x (a : Vec3) : (-a).x = -a.x := rfl
@[simp] theorem Vec3.neg_y (a : Vec3) : (-a).y = -a.y := rfl
@[simp] theorem Vec3.neg_z (a : Vec3) : (-a).z = -a.z := rfl
@[simp] theorem Vec3.smul_x (q : ℚ) (a : Vec3) : (q • a).x = q * a.x := rfl
@[simp] theorem Vec3.smul_y (q : ℚ) (a : Vec3) : (q • a).y = q * a.y := rfl
@[simp] theorem Vec3.smul_z (q : ℚ) (a : Vec3) : (q • a).z = q * a.z := rfl

/-- glm::dot on vec3. -/
def dot (a b : Vec3) : ℚ := a.x * b.x + a.y * b.y + a.z * b.z

/-- glm::cross. -/
def cross (a b : Vec3) : Vec3 :=
  ⟨a.y * b.z - a.z * b.y, a.z * b.x - a.x * b.z, a.x * b.y - a.y * b.x⟩

/-- glm::vec4. -/
@[ext]
structure Vec4 where
  x : ℚ
  y : ℚ
  z : ℚ
  w : ℚ
deriving DecidableEq

instance : Add Vec4 := ⟨fun a b => ⟨a.x + b.x, a.y + b.y, a.z + b.z, a.w + b.w⟩⟩
instance : SMul ℚ Vec4 := ⟨fun q v => ⟨q * v.x, q * v.y, q * v.z, q * v.w⟩⟩

@[simp] theorem Vec4.add4_x (a b : Vec4) : (a + b).x = a.x + b.x := rfl
@[simp] theorem Vec4.add4_y (a b : Vec4) : (a + b).y = a.y + b.y := rfl
@[simp] theorem Vec4.add4_z (a b : Vec4) : (a + b).z = a.z + b.z := rfl
@[simp] theorem Vec4.add4_w (a b : Vec4) : (a + b).w = a.w + b.w := rfl
@[simp] theorem Vec4.smul4_x (q : ℚ) (a : Vec4) : (q • a).x = q * a.x := rfl
@[simp] theorem Vec4.smul4_y (q : ℚ) (a : Vec4) : (q • a).y = q * a.y := rfl
@[simp] theorem Vec4.smul4_z (q : ℚ) (a : Vec4) : (q • a).z = q * a.z := rfl
@[simp] theorem Vec4.smul4_w (q : ℚ) (a : Vec4) : (q • a).w = q * a.w := rfl

/-- glm::dot on vec4. -/
def dot4 (a b : Vec4) : ℚ := a.x * b.x + a.y * b.y + a.z * b.z + a.w * b.w

/-- glm::mat4, stored as its four columns, exactly as glm indexes it
(`M[j]` is column `j`). -/
@[ext]
structure Mat4 where
  c0 : Vec4
  c1 : Vec4
  c2 : Vec4
  c3 : Vec4
deriving DecidableEq

/-- Row-vector application `v * M`, the convention the camera code uses for
`glm::vec4 * glm::mat4`: component `j` of the result is the dot product of
`v` with column `j` of `M`. -/
def rowApp (v : Vec4) (M : Mat4) : Vec4 :=
  ⟨dot4 v M.c0, dot4 v M.c1, dot4 v M.c2, dot4 v M.c3⟩

/-- Matrix-times-column-vector; column `j` of `A * B` is `A` applied to
column `j` of `B`. -/
def colApp (M : Mat4) (v : Vec4) : Vec4 :=
  v.x • M.c0 + v.y • M.c1 + v.z • M.c2 + v.w • M.c3

/-- glm mat4 product `A * B`. -/
def matMul (A B : Mat4) : Mat4 :=
  ⟨colApp A B.c0, colApp A B.c1, colApp A B.c2, colApp A B.c3⟩

/-- Point embedding `glm::vec4(v, 1)`. -/
def toV4 (v : Vec3) : Vec4 := ⟨v.x, v.y, v.z, 1⟩

/-- The xyz projection `glm::vec3(v.x, v.y, v.z)` of a vec4. -/
def xyz (v : Vec4) : Vec3 := ⟨v.x, v.y, v.z⟩

/-- glm::translate(mat4(1), v). -/
def translateM (v : Vec3) : Mat4 :=
  ⟨⟨1, 0, 0, 0⟩, ⟨0, 1, 0, 0⟩, ⟨0, 0, 1, 0⟩, ⟨v.x, v.y, v.z, 1⟩⟩

/-- glm::rotate(mat4(1), angle, axis), written with the cosine `c` and sine
`s` of the angle and the normalized axis `a` as parameters (the oracle
`Oracles.rot` stands for this matrix; `c`, `s`, `a` are transcendental
functions of the command data).  Entries follow glm's matrix_transform
source, column by column. -/
def glmRotMat (c s : ℚ) (a : Vec3) : Mat4 :=
  ⟨⟨c + (1 - c) * a.x * a.x, (1 - c) * a.x * a.y + s * a.z,
      (1 - c) * a.x * a.z - s * a.y, 0⟩,
   ⟨(1 - c) * a.y * a.x - s * a.z, c + (1 - c) * a.y * a.y,
      (1 - c) * a.y * a.z + s * a.x, 0⟩,
   ⟨(1 - c) * a.z * a.x + s * a.y, (1 - c) * a.z * a.y - s * a.x,
      c + (1 - c) * a.z * a.z, 0⟩,
   ⟨0, 0, 0, 1⟩⟩

/-- Application of the linear part of a transform to a direction vector in
the row-vector convention (embed with `w = 0`). -/
def linApp (M : Mat4) (v : Vec3) : Vec3 := xyz (rowApp ⟨v.x, v.y, v.z, 0⟩ M)

/-- `u` is the exact normalization of `v`: a positive scalar multiple of
`v` with unit squared length.  This is the defining property of
`glm::normalize` on a nonzero argument in exact arithmetic. -/
def isNrmOf (v u : Vec3) : Prop := (∃ c : ℚ, 0 < c ∧ u = c • v) ∧ dot u u = 1

/-- struct lookAt of the vector-variant header. -/
structure lookAt where
  Position : Vec3
  InicialFront : Vec3
  FinalFront : Vec3
  InicialTime : ℚ
  FinalTime : ℚ
  Ended : Bool
deriving DecidableEq

/-- struct translation. -/
structure translation where
  InicialPosition : Vec3
  Position : Vec3
  InicialTime : ℚ
  FinalTime : ℚ
  Ended : Bool
deriving DecidableEq

/-- struct rotationRP. -/
structure rotationRP where
  Point : Vec3
  Angle : ℚ
  InicialTime : ℚ
  FinalTime : ℚ
  InicialFront : Vec3
  InicialPosition : Vec3
  InicialUp : Vec3
  Ended : Bool
deriving DecidableEq

/-- struct rotationRA. -/
structure rotationRA where
  Axis : Vec3
  Angle : ℚ
  InicialTime : ℚ
  FinalTime : ℚ
  InicialFront : Vec3
  InicialPosition : Vec3
  InicialUp : Vec3
  Ended : Bool
deriving DecidableEq

/-- struct spline (used by both the b-spline and the Bezier queues); its
`Time` field stores the duration at enqueue and the absolute deadline after
dequeue. -/
structure spline where
  p0 : Vec3
  p1 : Vec3
  p2 : Vec3
  p3 : Vec3
  InicialTime : ℚ
  Time : ℚ
  Ended : Bool
deriving DecidableEq

/-- The camera state of the vector-variant class: pose, sampled clock, the
six FIFO queues and the six current-command slots.  The pure option
scalars of the class (MovementSpeed, MouseSensitivity, Zoom, Near, Far,
noiseActive) are read by none of the claims and are omitted. -/
structure Cam where
  Position : Vec3
  Front : Vec3
  Up : Vec3
  Right : Vec3
  WorldUp : Vec3
  currTime : ℚ
  lookAtQueue : List lookAt
  translationQueue : List translation
  rotationRPQueue : List rotationRP
  rotationRAQueue : List rotationRA
  bSplineQueue : List spline
  bezierQueue : List spline
  currLookAt : lookAt
  currTranslation : translation
  currRP : rotationRP
  currRA : rotationRA
  currBSpline : spline
  currBezier : spline
deriving DecidableEq

/-- Oracle functions standing for the glm library calls whose exact values
are transcendental: `nrm` for `glm::normalize` on vec3 and `rot` for
`glm::rotate(glm::mat4(1), angle, axis)`.  Theorems that depend on their
defining properties take those properties as hypotheses at the points of
use. -/
structure Oracles where
  nrm : Vec3 → Vec3
  rot : ℚ → Vec3 → Mat4

/-- updateCameraVectors of the vector variant: Front is renormalized, then
Right and Up are rebuilt from Front and WorldUp. -/
def updateCameraVectors (O : Oracles) (cam : Cam) : Cam :=
  let f := O.nrm cam.Front
  let r := O.nrm (cross f cam.WorldUp)
  let u := O.nrm (cross r f)
  { cam with Front := f, Right := r, Up := u }

/-- glm::catmullRom (gtx/spline.inl). -/
def catmullRom (v1 v2 v3 v4 : Vec3) (s : ℚ) : Vec3 :=
  let s2 := s ^ 2
  let s3 := s ^ 3
  let f1 := -s3 + 2 * s2 - s
  let f2 := 3 * s3 - 5 * s2 + 2
  let f3 := -3 * s3 + 4 * s2 + s
  let f4 := s3 - s2
  (1 / 2 : ℚ) • (f1 • v1 + f2 • v2 + f3 • v3 + f4 • v4)

/-- The private Bezier member function: cubic Bernstein interpolation. -/
def Bezier (b : spline) (t : ℚ) : Vec3 :=
  ((1 - t) ^ 3) • b.p0 + (3 * (1 - t) ^ 2 * t) • b.p1 +
    (3 * (1 - t) * t ^ 2) • b.p2 + (t ^ 3) • b.p3

/-- The decimal literal `0.333333333` used by ProcessBSPline (note: not
exactly one third). -/
def kA : ℚ := 333333333 / 1000000000

/-- The decimal literal `0.666666666` used by ProcessBSPline (note: not
exactly two thirds). -/
def kB : ℚ := 666666666 / 1000000000

/-- Body of ProcessBSPline after the dequeue phase: clamp/snap to `p3` when
the progress reaches 1, otherwise evaluate the piecewise Catmull-Rom
curve. -/
def stepBSpline (cam : Cam) : Cam :=
  let b := cam.currBSpline
  let p := pctF cam.currTime b.InicialTime b.Time
  if p.ge1 then
    { cam with currBSpline := { b with Ended := true }, Position := b.p3 }
  else
    let pc := p.toQ
    let v :=
      if pc ≤ kA then catmullRom b.p0 b.p0 b.p1 b.p2 (3 * pc)
      else if pc ≤ kB then catmullRom b.p0 b.p1 b.p2 b.p3 (3 * (pc - kA))
      else catmullRom b.p1 b.p2 b.p3 b.p3 (3 * (pc - kB))
    { cam with Position := v }

/-- ProcessBSPline: when the current command has Ended, dequeue and stamp
the head of the queue (or return if the queue is empty); then run the step
body. -/
def ProcessBSPline (cam : Cam) : Cam :=
  if cam.currBSpline.Ended then
    match cam.bSplineQueue with
    | [] => cam
    | c :: rest =>
        stepBSpline { cam with
          bSplineQueue := rest
          currBSpline := { c with InicialTime := cam.currTime,
                                  Time := c.Time + cam.currTime,
                                  Ended := false } }
  else stepBSpline cam

/-- Body of ProcessBezier after the dequeue phase. -/
def stepBezier (cam : Cam) : Cam :=
  let b := cam.currBezier
  let p := pctF cam.currTime b.InicialTime b.Time
  if p.ge1 then
    { cam with currBezier := { b with Ended := true }, Position := b.p3 }
  else
    { cam with Position := Bezier b p.toQ }

/-- ProcessBezier: dequeue phase plus step body. -/
def ProcessBezier (cam : Cam) : Cam :=
  if cam.currBezier.Ended then
    match cam.bezierQueue with
    | [] => cam
    | c :: rest =>
        stepBezier { cam with
          bezierQueue := rest
          currBezier := { c with InicialTime := cam.currTime,
                                 Time := c.Time + cam.currTime,
                                 Ended := false } }
  else stepBezier cam

/-- Body of processTranslation after the dequeue phase: clamp the progress
to 1, mark Ended on reaching it, and write the affine interpolation from
the dequeue-time snapshot to the target. -/
def stepTranslation (cam : Cam) : Cam :=
  let t := cam.currTranslation
  let p := pctF cam.currTime t.InicialTime t.FinalTime
  let pq : ℚ := if p.ge1 then 1 else p.toQ
  { cam with
    currTranslation := { t with Ended := p.ge1 }
    Position := t.InicialPosition + pq • (t.Position - t.InicialPosition) }

/-- processTranslation: dequeue phase (stamping times and the position
snapshot) plus step body. -/
def processTranslation (cam : Cam) : Cam :=
  if cam.currTranslation.Ended then
    match cam.translationQueue with
    | [] => cam
    | c :: rest =>
        stepTranslation { cam with
          translationQueue := rest
          currTranslation := { c with InicialTime := cam.currTime,
                                      FinalTime := c.FinalTime + cam.currTime,
                                      Ended := false,
                                      InicialPosition := cam.Position } }
  else stepTranslation cam

/-- Body of ProcessRA after the dequeue phase: rotate the dequeue-time
position/front/up snapshots (as row vectors) by `angle * percentage` about
the axis, derive Front/Up as rotated-point minus rotated-position, then
overwrite Position back to the un-rotated snapshot and re-orthogonalize. -/
def stepRA (O : Oracles) (cam : Cam) : Cam :=
  let r := cam.currRA
  let p := pctF cam.currTime r.InicialTime r.FinalTime
  let pq : ℚ := if p.ge1 then 1 else p.toQ
  let angle := r.Angle * pq
  let rotM := O.rot angle r.Axis
  let newPosition := rowApp (toV4 r.InicialPosition) rotM
  let newFront := rowApp (toV4 (r.InicialPosition + r.InicialFront)) rotM
  let newUp := rowApp (toV4 (r.InicialPosition + r.InicialUp)) rotM
  updateCameraVectors O { cam with
    currRA := { r with Ended := p.ge1 }
    Front := xyz newFront - xyz newPosition
    Up := xyz newUp - xyz newPosition
    Position := r.InicialPosition }

/-- ProcessRA: dequeue phase (stamping times and pose snapshots) plus step
body. -/
def ProcessRA (O : Oracles) (cam : Cam) : Cam :=
  if cam.currRA.Ended then
    match cam.rotationRAQueue with
    | [] => cam
    | c :: rest =>
        stepRA O { cam with
          rotationRAQueue := rest
          currRA := { c with Ended := false,
                             InicialTime := cam.currTime,
                             FinalTime := c.FinalTime + cam.currTime,
                             InicialFront := cam.Front,
                             InicialPosition := cam.Position,
                             InicialUp := cam.Up } }
  else stepRA O cam

/-- Body of ProcessRP after the dequeue phase.  The source builds
`rMatrix = translate(I, Point) * rotate(angle, Up) * translate(-Point)` and
applies it to the position snapshot as a row vector; the local
`glm::vec4 newFront` it computes afterwards is dead (never read) and is
omitted here. -/
def stepRP (O : Oracles) (cam : Cam) : Cam :=
  let r := cam.currRP
  let p := pctF cam.currTime r.InicialTime r.FinalTime
  let pq : ℚ := if p.ge1 then 1 else p.toQ
  let angle := r.Angle * pq
  let rM := matMul (matMul (translateM r.Point) (O.rot angle cam.Up)) (translateM (-r.Point))
  let newPosition := rowApp (toV4 r.InicialPosition) rM
  updateCameraVectors O { cam with
    currRP := { r with Ended := p.ge1 }
    Position := xyz newPosition }

/-- ProcessRP: dequeue phase (which also chooses the rotation-plane up
vector, flipped to a non-negative vertical component) plus step body. -/
def ProcessRP (O : Oracles) (cam : Cam) : Cam :=
  if cam.currRP.Ended then
    match cam.rotationRPQueue with
    | [] => cam
    | c :: rest =>
        let stamped := { c with Ended := false,
                                InicialTime := cam.currTime,
                                FinalTime := c.FinalTime + cam.currTime,
                                InicialFront := cam.Front,
                                InicialPosition := cam.Position,
                                InicialUp := cam.Up }
        let newFront0 : Vec3 :=
          if stamped.Point ≠ cam.Position then stamped.Point - cam.Position else cam.Front
        let newFront := O.nrm newFront0
        let up2 : Vec3 :=
          if newFront ≠ cam.Front ∧ newFront + cam.Front ≠ (⟨0, 0, 0⟩ : Vec3) then
            let u := O.nrm (cross cam.Front newFront)
            if u.y ≤ 0 then (-1 : ℚ) • u else u
          else cam.Up
        stepRP O { cam with
          rotationRPQueue := rest
          currRP := stamped
          Up := up2 }
  else stepRP O cam

/-- Body of ProcessLookAt (vector variant) after the dequeue phase: Front
is interpolated component-wise from the dequeue-time snapshot toward the
stamped final front, then the basis is re-orthogonalized. -/
def stepLookAt (O : Oracles) (cam : Cam) : Cam :=
  let t := cam.currLookAt
  let p := pctF cam.currTime t.InicialTime t.FinalTime
  let pq : ℚ := if p.ge1 then 1 else p.toQ
  updateCameraVectors O { cam with
    currLookAt := { t with Ended := p.ge1 }
    Front := t.InicialFront + pq • (t.FinalFront - t.InicialFront) }

/-- ProcessLookAt (vector variant): dequeue phase with the degenerate-case
early return (target equal to the current position marks the command Ended
with no motion), then the step body. -/
def ProcessLookAt (O : Oracles) (cam : Cam) : Cam :=
  if cam.currLookAt.Ended then
    match cam.lookAtQueue with
    | [] => cam
    | c :: rest =>
        if cam.Position = c.Position then
          { cam with lookAtQueue := rest, currLookAt := { c with Ended := true } }
        else
          stepLookAt O { cam with
            lookAtQueue := rest
            currLookAt := { c with InicialTime := cam.currTime,
                                   FinalTime := c.FinalTime + cam.currTime,
                                   Ended := false,
                                   InicialFront := cam.Front,
                                   FinalFront := O.nrm (c.Position - cam.Position) } }
  else stepLookAt O cam

/-- ProcessTransformations: sample the clock once, then advance every kind
in the source's fixed order (b-spline, Bezier, translation, RP, RA,
look-at). -/
def ProcessTransformations (O : Oracles) (now : ℚ) (cam : Cam) : Cam :=
  ProcessLookAt O (ProcessRA O (ProcessRP O
    (processTranslation (ProcessBezier (ProcessBSPline { cam with currTime := now })))))

/-- glm::lookAt (right-handed), with the normalize oracle. -/
def lookAtM (O : Oracles) (eye center up : Vec3) : Mat4 :=
  let f := O.nrm (center - eye)
  let s := O.nrm (cross f up)
  let u := cross s f
  ⟨⟨s.x, u.x, -f.x, 0⟩, ⟨s.y, u.y, -f.y, 0⟩, ⟨s.z, u.z, -f.z, 0⟩,
   ⟨-(dot s eye), -(dot u eye), dot f eye, 1⟩⟩

/-- GetViewMatrix: advance all animation state, then return the look-at
matrix of the resulting pose (paired here with the mutated camera). -/
def GetViewMatrix (O : Oracles) (now : ℚ) (cam : Cam) : Mat4 × Cam :=
  let c := ProcessTransformations O now cam
  (lookAtM O c.Position (c.Position + c.Front) c.Up, c)

/-- Junk record for the fields the C++ constructor leaves uninitialized in
a current-command slot (only `Ended := true` is set, and only `Ended` is
ever read before the slot is overwritten at dequeue). -/
def lookAt.init : lookAt := ⟨⟨0, 0, 0⟩, ⟨0, 0, 0⟩, ⟨0, 0, 0⟩, 0, 0, true⟩

/-- Junk translation slot with `Ended := true` (see `lookAt.init`). -/
def translation.init : translation := ⟨⟨0, 0, 0⟩, ⟨0, 0, 0⟩, 0, 0, true⟩

/-- Junk rotationRP slot with `Ended := true`. -/
def rotationRP.init : rotationRP :=
  ⟨⟨0, 0, 0⟩, 0, 0, 0, ⟨0, 0, 0⟩, ⟨0, 0, 0⟩, ⟨0, 0, 0⟩, true⟩

/-- Junk rotationRA slot with `Ended := true`. -/
def rotationRA.init : rotationRA :=
  ⟨⟨0, 0, 0⟩, 0, 0, 0, ⟨0, 0, 0⟩, ⟨0, 0, 0⟩, ⟨0, 0, 0⟩, true⟩

/-- Junk spline slot with `Ended := true`. -/
def spline.init : spline := ⟨⟨0, 0, 0⟩, ⟨0, 0, 0⟩, ⟨0, 0, 0⟩, ⟨0, 0, 0⟩, 0, 0, true⟩

/-- The vector-variant constructor: all six slots start Ended, the pose is
initialized and the basis re-orthogonalized.  `currTime` is uninitialized
in C++ and modelled as 0; it is overwritten before first use. -/
def mkCamera (O : Oracles) (position up front : Vec3) : Cam :=
  updateCameraVectors O
    { Position := position, Front := front, Up := ⟨0, 0, 0⟩, Right := ⟨0, 0, 0⟩,
      WorldUp := up, currTime := 0,
      lookAtQueue := [], translationQueue := [], rotationRPQueue := [],
      rotationRAQueue := [], bSplineQueue := [], bezierQueue := [],
      currLookAt := lookAt.init, currTranslation := translation.init,
      currRP := rotationRP.init, currRA := rotationRA.init,
      currBSpline := spline.init, currBezier := spline.init }

/-- Enqueue operation Translate(P, time): constructs the record with
`Ended := false` and appends it to the tail of the translation queue;
the fields stamped at dequeue are modelled as 0 (uninitialized in C++). -/
def Translate (cam : Cam) (P : Vec3) (time : ℚ) : Cam :=
  { cam with translationQueue := cam.translationQueue ++
      [{ InicialPosition := ⟨0, 0, 0⟩, Position := P, InicialTime := 0,
         FinalTime := time, Ended := false }] }

/-- Enqueue operation LookAt(P, time). -/
def LookAt (cam : Cam) (P : Vec3) (time : ℚ) : Cam :=
  { cam with lookAtQueue := cam.lookAtQueue ++
      [{ Position := P, InicialFront := ⟨0, 0, 0⟩, FinalFront := ⟨0, 0, 0⟩,
         InicialTime := 0, FinalTime := time, Ended := false }] }

/-- Enqueue operation rotateRP(P, angle, time). -/
def rotateRP (cam : Cam) (P : Vec3) (angle time : ℚ) : Cam :=
  { cam with rotationRPQueue := cam.rotationRPQueue ++
      [{ Point := P, Angle := angle, InicialTime := 0, FinalTime := time,
         InicialFront := ⟨0, 0, 0⟩, InicialPosition := ⟨0, 0, 0⟩,
         InicialUp := ⟨0, 0, 0⟩, Ended := false }] }

/-- Enqueue operation rotateRA(axis, angle, time). -/
def rotateRA (cam : Cam) (axis : Vec3) (angle time : ℚ) : Cam :=
  { cam with rotationRAQueue := cam.rotationRAQueue ++
      [{ Axis := axis, Angle := angle, InicialTime := 0, FinalTime := time,
         InicialFront := ⟨0, 0, 0⟩, InicialPosition := ⟨0, 0, 0⟩,
         InicialUp := ⟨0, 0, 0⟩, Ended := false }] }

/-- Enqueue operation bSplinePath(P0..P3, time). -/
def bSplinePath (cam : Cam) (P0 P1 P2 P3 : Vec3) (time : ℚ) : Cam :=
  { cam with bSplineQueue := cam.bSplineQueue ++
      [{ p0 := P0, p1 := P1, p2 := P2, p3 := P3,
         InicialTime := 0, Time := time, Ended := false }] }

/-- Enqueue operation bezierPath(P0..P3, time). -/
def bezierPath (cam : Cam) (P0 P1 P2 P3 : Vec3) (time : ℚ) : Cam :=
  { cam with bezierQueue := cam.bezierQueue ++
      [{ p0 := P0, p1 := P1, p2 := P2, p3 := P3,
         InicialTime := 0, Time := time, Ended := false }] }

namespace YP

/-- struct lookAt of the yaw/pitch-variant header. -/
structure lookAt where
  Position : Vec3
  InicialTime : ℚ
  FinalTime : ℚ
  InicialPitch : ℚ
  InicialYaw : ℚ
  FinalPitch : ℚ
  FinalYaw : ℚ
  Ended : Bool
deriving DecidableEq

/-- The fragment of the yaw/pitch-variant camera state that its
ProcessLookAt touches. -/
structure Cam where
  Position : Vec3
  Front : Vec3
  Yaw : ℚ
  Pitch : ℚ
  currTime : ℚ
  lookAtQueue : List lookAt
  currLookAt : lookAt
deriving DecidableEq

/-- Oracle for the dequeue-time stamping of FinalPitch/FinalYaw, which the
source computes with glm::normalize and glm::orientedAngle (transcendental
functions of the camera pose and the target).  It receives the camera and
the freshly dequeued command and returns the pair
(FinalPitch, FinalYaw). -/
structure Oracle where
  stamp : Cam → lookAt → ℚ × ℚ

/-- Reachable body of the yaw/pitch ProcessLookAt after dequeue: the
clamp-and-end branch is followed by an unconditional `Ended := true` and a
jump of Pitch/Yaw to their final values; the interpolation assignments
after the early return are dead code and do not appear here. -/
def stepLookAt (cam : Cam) : Cam :=
  let l := cam.currLookAt
  let p := pctF cam.currTime l.InicialTime l.FinalTime
  let c1 := if p.ge1 then { cam with currLookAt := { l with Ended := true } } else cam
  { c1 with
    currLookAt := { c1.currLookAt with Ended := true }
    Pitch := l.FinalPitch
    Yaw := l.FinalYaw }

/-- The yaw/pitch ProcessLookAt: dequeue phase (stamping times, initial
angles and, via the oracle, the final angles) plus the step body. -/
def processLookAt (A : Oracle) (cam : Cam) : Cam :=
  if cam.currLookAt.Ended then
    match cam.lookAtQueue with
    | [] => cam
    | c :: rest =>
        let fp := A.stamp cam c
        stepLookAt { cam with
          lookAtQueue := rest
          currLookAt := { c with InicialTime := cam.currTime,
                                 FinalTime := c.FinalTime + cam.currTime,
                                 InicialPitch := cam.Pitch,
                                 InicialYaw := cam.Yaw,
                                 FinalPitch := fp.1,
                                 FinalYaw := fp.2,
                                 Ended := false } }
  else stepLookAt cam

end YP

/-- A finite-denominator progress fraction is a plain rational division. -/
theorem pctF_of_lt (now : ℚ) {t0 t1 : ℚ} (h : t0 < t1) :
    pctF now t0 t1 = .fin ((now - t0) / (t1 - t0)) := by
  unfold pctF fdiv
  rw [if_neg (sub_ne_zero.mpr (ne_of_gt h))]

/-- The `>= 1` test on a finite quotient. -/
theorem FP.ge1_fin (q : ℚ) : (FP.fin q).ge1 = decide (1 ≤ q) := rfl

/-- A zero numerator never passes the `>= 1` test (the quotient is 0, NaN
or -inf). -/
theorem FP.ge1_zero_num (b : ℚ) : (fdiv 0 b).ge1 = false := by
  unfold fdiv
  by_cases hb : b = 0
  · simp [hb, FP.ge1]
  · simp [hb, FP.ge1]

/-- Affine interpolation at coefficient 1 lands exactly on the target. -/
theorem Vec3.lerp_one (a b : Vec3) : a + (1 : ℚ) • (b - a) = b := by
  ext <;> simp

/-- Affine interpolation at coefficient 0 stays at the start. -/
theorem Vec3.lerp_zero (a b : Vec3) : a + (0 : ℚ) • (b - a) = a := by
  ext <;> simp

/-- Scalars pull out of the second dot argument. -/
theorem dot_smul_right (c : ℚ) (a v : Vec3) : dot a (c • v) = c * dot a v := by
  unfold dot; simp; ring

/-- A vector is orthogonal to its cross product with anything. -/
theorem dot_cross_left (a b : Vec3) : dot a (cross a b) = 0 := by
  unfold dot cross; ring

/-- The second factor is orthogonal to a cross product. -/
theorem dot_cross_right (a b : Vec3) : dot b (cross a b) = 0 := by
  unfold dot cross; ring

/-- The difference of row-applications of a transform at `p + f` and `p`
is the linear part applied to `f` (the transform's translation column
cancels). -/
theorem rowApp_point_sub (M : Mat4) (p f : Vec3) :
    xyz (rowApp (toV4 (p + f)) M) - xyz (rowApp (toV4 p) M) = linApp M f := by
  ext <;> simp [rowApp, toV4, xyz, linApp, dot4] <;> ring

/-- C1: every per-frame step of an active Translate command sets the
camera position to the affine interpolation between the position snapshot
captured at dequeue and the target,
`position = start + percentage * (target - start)` with the progress
clamped at 1. -/
theorem C1_translate_affine (cam : Cam)
    (hact : cam.currTranslation.Ended = false)
    (hlt : cam.currTranslation.InicialTime < cam.currTranslation.FinalTime) :
    (processTranslation cam).Position =
      cam.currTranslation.InicialPosition +
        min ((cam.currTime - cam.currTranslation.InicialTime) /
             (cam.currTranslation.FinalTime - cam.currTranslation.InicialTime)) 1 •
          (cam.currTranslation.Position - cam.currTranslation.InicialPosition) := by
  have hp : pctF cam.currTime cam.currTranslation.InicialTime cam.currTranslation.FinalTime
      = .fin ((cam.currTime - cam.currTranslation.InicialTime) /
              (cam.currTranslation.FinalTime - cam.currTranslation.InicialTime)) :=
    pctF_of_lt cam.currTime hlt
  by_cases hge : (1 : ℚ) ≤ (cam.currTime - cam.currTranslation.InicialTime) /
      (cam.currTranslation.FinalTime - cam.currTranslation.InicialTime)
  · simp [processTranslation, hact, stepTranslation, hp, FP.ge1, hge, min_eq_right hge]
  · simp [processTranslation, hact, stepTranslation, hp, FP.ge1, FP.toQ, hge,
      min_eq_left (le_of_not_le hge)]

/-- Identity-style oracle for concrete instantiations: `nrm` is the
identity and `rot` is a constant rotation matrix.  Theorems take the
oracle properties they need as hypotheses, and each witness discharges
them at its own concrete inputs. -/
def OId : Oracles := ⟨fun v => v, fun _ _ => glmRotMat 1 0 ⟨0, 0, 1⟩⟩

/-- The example scenario of C1 after its first frame: camera constructed
idle at (0,5,3) with forward (0,0,-1), `Translate((5,5,5), 8)` enqueued,
dequeued by a frame at t = 0, and about to be sampled at t = 4. -/
def camC1 : Cam :=
  { processTranslation
      (Translate (mkCamera OId ⟨0, 5, 3⟩ ⟨0, 1, 0⟩ ⟨0, 0, -1⟩) ⟨5, 5, 5⟩ 8) with
    currTime := 4 }

/-- Witness for C1: sampling the example scenario at t = start + 4 yields
the linear midpoint (2.5, 5, 4). -/
theorem C1_witness : (processTranslation camC1).Position = ⟨5 / 2, 5, 4⟩ := by
  have h := C1_translate_affine camC1
    (by norm_num [camC1, processTranslation, stepTranslation, Translate, mkCamera,
      updateCameraVectors, OId, translation.init, pctF, fdiv, FP.ge1, FP.toQ])
    (by norm_num [camC1, processTranslation, stepTranslation, Translate, mkCamera,
      updateCameraVectors, OId, translation.init, pctF, fdiv, FP.ge1, FP.toQ])
  rw [h]
  norm_num [camC1, processTranslation, stepTranslation, Translate, mkCamera,
    updateCameraVectors, OId, translation.init, pctF, fdiv, FP.ge1, FP.toQ, min_def]
  norm_num [Vec3.ext_iff]

/-- C2: with a positive duration and a monotone clock, the effective
progress fraction lies in [0,1]; moreover, on any step where the raw
fraction reaches or exceeds 1 the current command is marked Ended and the
pose is snapped to the exact final value (translation to the target,
Bezier and b-spline to p3, with the rotation and look-at kinds likewise
marked Ended at that point). -/
theorem C2_clamp_and_snap :
    (∀ cam : Cam, cam.currTranslation.Ended = false →
      cam.currTranslation.InicialTime < cam.currTranslation.FinalTime →
      cam.currTranslation.InicialTime ≤ cam.currTime →
      (0 ≤ min ((cam.currTime - cam.currTranslation.InicialTime) /
            (cam.currTranslation.FinalTime - cam.currTranslation.InicialTime)) 1 ∧
        min ((cam.currTime - cam.currTranslation.InicialTime) /
            (cam.currTranslation.FinalTime - cam.currTranslation.InicialTime)) 1 ≤ 1) ∧
      (1 ≤ (cam.currTime - cam.currTranslation.InicialTime) /
            (cam.currTranslation.FinalTime - cam.currTranslation.InicialTime) →
        (processTranslation cam).currTranslation.Ended = true ∧
        (processTranslation cam).Position = cam.currTranslation.Position)) ∧
    (∀ cam : Cam, cam.currBezier.Ended = false →
      cam.currBezier.InicialTime < cam.currBezier.Time →
      1 ≤ (cam.currTime - cam.currBezier.InicialTime) /
            (cam.currBezier.Time - cam.currBezier.InicialTime) →
      (ProcessBezier cam).currBezier.Ended = true ∧
      (ProcessBezier cam).Position = cam.currBezier.p3) ∧
    (∀ cam : Cam, cam.currBSpline.Ended = false →
      cam.currBSpline.InicialTime < cam.currBSpline.Time →
      1 ≤ (cam.currTime - cam.currBSpline.InicialTime) /
            (cam.currBSpline.Time - cam.currBSpline.InicialTime) →
      (ProcessBSPline cam).currBSpline.Ended = true ∧
      (ProcessBSPline cam).Position = cam.currBSpline.p3) ∧
    (∀ (O : Oracles) (cam : Cam), cam.currRA.Ended = false →
      cam.currRA.InicialTime < cam.currRA.FinalTime →
      1 ≤ (cam.currTime - cam.currRA.InicialTime) /
            (cam.currRA.FinalTime - cam.currRA.InicialTime) →
      (ProcessRA O cam).currRA.Ended = true) ∧
    (∀ (O : Oracles) (cam : Cam), cam.currRP.Ended = false →
      cam.currRP.InicialTime < cam.currRP.FinalTime →
      1 ≤ (cam.currTime - cam.currRP.InicialTime) /
            (cam.currRP.FinalTime - cam.currRP.InicialTime) →
      (ProcessRP O cam).currRP.Ended = true) ∧
    (∀ (O : Oracles) (cam : Cam), cam.currLookAt.Ended = false →
      cam.currLookAt.InicialTime < cam.currLookAt.FinalTime →
      1 ≤ (cam.currTime - cam.currLookAt.InicialTime) /
            (cam.currLookAt.FinalTime - cam.currLookAt.InicialTime) →
      (ProcessLookAt O cam).currLookAt.Ended = true) := by
  refine ⟨?_, ?_, ?_, ?_, ?_, ?_⟩
  · intro cam hact hlt hnow
    have hp := pctF_of_lt cam.currTime hlt
    refine ⟨⟨le_min (div_nonneg (sub_nonneg.mpr hnow) (sub_pos.mpr hlt).le)
      zero_le_one, min_le_right _ _⟩, ?_⟩
    intro hge
    constructor
    · simp [processTranslation, hact, stepTranslation, hp, FP.ge1, hge]
    · simp [processTranslation, hact, stepTranslation, hp, FP.ge1, hge, Vec3.lerp_one]
  · intro cam hact hlt hge
    have hp := pctF_of_lt cam.currTime hlt
    constructor
    · simp [ProcessBezier, hact, stepBezier, hp, FP.ge1, hge]
    · simp [ProcessBezier, hact, stepBezier, hp, FP.ge1, hge]
  · intro cam hact hlt hge
    have hp := pctF_of_lt cam.currTime hlt
    constructor
    · simp [ProcessBSPline, hact, stepBSpline, hp, FP.ge1, hge]
    · simp [ProcessBSPline, hact, stepBSpline, hp, FP.ge1, hge]
  · intro O cam hact hlt hge
    have hp := pctF_of_lt cam.currTime hlt
    simp [ProcessRA, hact, stepRA, hp, FP.ge1, hge, updateCameraVectors]
  · intro O cam hact hlt hge
    have hp := pctF_of_lt cam.currTime hlt
    simp [ProcessRP, hact, stepRP, hp, FP.ge1, hge, updateCameraVectors]
  · intro O cam hact hlt hge
    have hp := pctF_of_lt cam.currTime hlt
    simp [ProcessLookAt, hact, stepLookAt, hp, FP.ge1, hge, updateCameraVectors]

/-- Concrete camera with all six current-command slots active and past
their deadline (raw progress 2). -/
def camW2 : Cam :=
  { mkCamera OId ⟨0, 0, 0⟩ ⟨0, 1, 0⟩ ⟨0, 0, -1⟩ with
    currTime := 2,
    currTranslation := ⟨⟨0, 0, 0⟩, ⟨1, 2, 3⟩, 0, 1, false⟩,
    currBezier := ⟨⟨0, 0, 0⟩, ⟨1, 0, 0⟩, ⟨2, 0, 0⟩, ⟨3, 3, 3⟩, 0, 1, false⟩,
    currBSpline := ⟨⟨0, 0, 0⟩, ⟨1, 0, 0⟩, ⟨2, 0, 0⟩, ⟨4, 4, 4⟩, 0, 1, false⟩,
    currRA := ⟨⟨0, 0, 1⟩, 7, 0, 1, ⟨0, 0, -1⟩, ⟨0, 0, 0⟩, ⟨0, 1, 0⟩, false⟩,
    currRP := ⟨⟨1, 1, 1⟩, 7, 0, 1, ⟨0, 0, -1⟩, ⟨0, 0, 0⟩, ⟨0, 1, 0⟩, false⟩,
    currLookAt := ⟨⟨1, 1, 1⟩, ⟨0, 0, -1⟩, ⟨1, 0, 0⟩, 0, 1, false⟩ }

/-- Witness for C2: at raw progress 2 every kind Ends and the position
kinds snap exactly to their final values. -/
theorem C2_witness :
    (processTranslation camW2).currTranslation.Ended = true ∧
    (processTranslation camW2).Position = camW2.currTranslation.Position ∧
    (ProcessBezier camW2).currBezier.Ended = true ∧
    (ProcessBezier camW2).Position = camW2.currBezier.p3 ∧
    (ProcessBSPline camW2).currBSpline.Ended = true ∧
    (ProcessBSPline camW2).Position = camW2.currBSpline.p3 ∧
    (ProcessRA OId camW2).currRA.Ended = true ∧
    (ProcessRP OId camW2).currRP.Ended = true ∧
    (ProcessLookAt OId camW2).currLookAt.Ended = true := by
  obtain ⟨h1, h2, h3, h4, h5, h6⟩ := C2_clamp_and_snap
  have e1 := (h1 camW2 (by norm_num [camW2, mkCamera, updateCameraVectors, OId])
    (by norm_num [camW2, mkCamera, updateCameraVectors, OId])
    (by norm_num [camW2, mkCamera, updateCameraVectors, OId])).2
    (by norm_num [camW2, mkCamera, updateCameraVectors, OId])
  have e2 := h2 camW2 (by norm_num [camW2, mkCamera, updateCameraVectors, OId])
    (by norm_num [camW2, mkCamera, updateCameraVectors, OId])
    (by norm_num [camW2, mkCamera, updateCameraVectors, OId])
  have e3 := h3 camW2 (by norm_num [camW2, mkCamera, updateCameraVectors, OId])
    (by norm_num [camW2, mkCamera, updateCameraVectors, OId])
    (by norm_num [camW2, mkCamera, updateCameraVectors, OId])
  have e4 := h4 OId camW2 (by norm_num [camW2, mkCamera, updateCameraVectors, OId])
    (by norm_num [camW2, mkCamera, updateCameraVectors, OId])
    (by norm_num [camW2, mkCamera, updateCameraVectors, OId])
  have e5 := h5 OId camW2 (by norm_num [camW2, mkCamera, updateCameraVectors, OId])
    (by norm_num [camW2, mkCamera, updateCameraVectors, OId])
    (by norm_num [camW2, mkCamera, updateCameraVectors, OId])
  have e6 := h6 OId camW2 (by norm_num [camW2, mkCamera, updateCameraVectors, OId])
    (by norm_num [camW2, mkCamera, updateCameraVectors, OId])
    (by norm_num [camW2, mkCamera, updateCameraVectors, OId])
  exact ⟨e1.1, e1.2, e2.1, e2.2, e3.1, e3.2, e4, e5, e6⟩

/-- C3: dequeuing happens only from the Ended state (an active command's
step never touches its kind's queue), a dequeue takes exactly the FIFO
head and activates it with the dequeue-time snapshot, and an active
translation command that has not yet reached progress 1 stays active with
its queue untouched, so a second queued command begins only after the
first has Ended (which, by C2, happens exactly when the first reaches its
final value). -/
theorem C3_fifo_single_slot :
    (∀ cam : Cam, cam.currTranslation.Ended = false →
        (processTranslation cam).translationQueue = cam.translationQueue) ∧
    (∀ cam : Cam, cam.currBezier.Ended = false →
        (ProcessBezier cam).bezierQueue = cam.bezierQueue) ∧
    (∀ cam : Cam, cam.currBSpline.Ended = false →
        (ProcessBSPline cam).bSplineQueue = cam.bSplineQueue) ∧
    (∀ (O : Oracles) (cam : Cam), cam.currRA.Ended = false →
        (ProcessRA O cam).rotationRAQueue = cam.rotationRAQueue) ∧
    (∀ (O : Oracles) (cam : Cam), cam.currRP.Ended = false →
        (ProcessRP O cam).rotationRPQueue = cam.rotationRPQueue) ∧
    (∀ (O : Oracles) (cam : Cam), cam.currLookAt.Ended = false →
        (ProcessLookAt O cam).lookAtQueue = cam.lookAtQueue) ∧
    (∀ (cam : Cam) (A : translation) (rest : List translation),
        cam.currTranslation.Ended = true → cam.translationQueue = A :: rest →
        (processTranslation cam).translationQueue = rest ∧
        (processTranslation cam).currTranslation.Position = A.Position ∧
        (processTranslation cam).currTranslation.InicialPosition = cam.Position ∧
        (processTranslation cam).currTranslation.Ended = false) ∧
    (∀ (cam : Cam) (A : spline) (rest : List spline),
        cam.currBezier.Ended = true → cam.bezierQueue = A :: rest →
        (ProcessBezier cam).bezierQueue = rest ∧
        (ProcessBezier cam).currBezier.p3 = A.p3 ∧
        (ProcessBezier cam).currBezier.Ended = false) ∧
    (∀ cam : Cam, cam.currTranslation.Ended = false →
        cam.currTranslation.InicialTime < cam.currTranslation.FinalTime →
        ¬ 1 ≤ (cam.currTime - cam.currTranslation.InicialTime) /
              (cam.currTranslation.FinalTime - cam.currTranslation.InicialTime) →
        (processTranslation cam).currTranslation.Ended = false ∧
        (processTranslation cam).currTranslation.Position =
          cam.currTranslation.Position ∧
        (processTranslation cam).translationQueue = cam.translationQueue) := by
  refine ⟨?_, ?_, ?_, ?_, ?_, ?_, ?_, ?_, ?_⟩
  · intro cam hact
    simp [processTranslation, hact, stepTranslation]
  · intro cam hact
    simp [ProcessBezier, hact, stepBezier]
    split <;> rfl
  · intro cam hact
    simp [ProcessBSPline, hact, stepBSpline]
    split <;> rfl
  · intro O cam hact
    simp [ProcessRA, hact, stepRA, updateCameraVectors]
  · intro O cam hact
    simp [ProcessRP, hact, stepRP, updateCameraVectors]
  · intro O cam hact
    simp [ProcessLookAt, hact, stepLookAt, updateCameraVectors]
  · intro cam A rest hEnd hq
    have h0 : pctF cam.currTime cam.currTime (A.FinalTime + cam.currTime)
        = fdiv 0 (A.FinalTime + cam.currTime - cam.currTime) := by
      unfold pctF
      rw [sub_self]
    refine ⟨?_, ?_, ?_, ?_⟩ <;>
      simp [processTranslation, hEnd, hq, stepTranslation, h0, FP.ge1_zero_num]
  · intro cam A rest hEnd hq
    have h0 : pctF cam.currTime cam.currTime (A.Time + cam.currTime)
        = fdiv 0 (A.Time + cam.currTime - cam.currTime) := by
      unfold pctF
      rw [sub_self]
    refine ⟨?_, ?_, ?_⟩ <;>
      simp [ProcessBezier, hEnd, hq, stepBezier, h0, FP.ge1_zero_num]
  · intro cam hact hlt hge
    have hp := pctF_of_lt cam.currTime hlt
    refine ⟨?_, ?_, ?_⟩ <;>
      simp [processTranslation, hact, stepTranslation, hp, FP.ge1, hge]

/-- Concrete idle camera with two queued translations A (to (1,1,1), 2s)
then B (to (9,9,9), 2s). -/
def camW3 : Cam :=
  Translate (Translate (mkCamera OId ⟨0, 0, 0⟩ ⟨0, 1, 0⟩ ⟨0, 0, -1⟩) ⟨1, 1, 1⟩ 2)
    ⟨9, 9, 9⟩ 2

/-- Witness for C3: dequeuing from the idle camera activates A (leaving B
queued and A's target in the slot), and a mid-flight step of A at progress
1/2 keeps A active with B still queued. -/
theorem C3_witness :
    ((processTranslation camW3).translationQueue =
        [⟨⟨0, 0, 0⟩, ⟨9, 9, 9⟩, 0, 2, false⟩] ∧
      (processTranslation camW3).currTranslation.Position = ⟨1, 1, 1⟩ ∧
      (processTranslation camW3).currTranslation.Ended = false) ∧
    ((processTranslation { processTranslation camW3 with currTime := 1 }).currTranslation.Ended = false ∧
      (processTranslation { processTranslation camW3 with currTime := 1 }).translationQueue =
        (processTranslation camW3).translationQueue) := by
  obtain ⟨-, -, -, -, -, -, h7, -, h9⟩ := C3_fifo_single_slot
  constructor
  · have e := h7 camW3 ⟨⟨0, 0, 0⟩, ⟨1, 1, 1⟩, 0, 2, false⟩
      [⟨⟨0, 0, 0⟩, ⟨9, 9, 9⟩, 0, 2, false⟩]
      (by norm_num [camW3, Translate, mkCamera, updateCameraVectors, OId, lookAt.init, translation.init, rotationRP.init, rotationRA.init, spline.init])
      (by norm_num [camW3, Translate, mkCamera, updateCameraVectors, OId, lookAt.init, translation.init, rotationRP.init, rotationRA.init, spline.init])
    refine ⟨e.1, ?_, e.2.2.2⟩
    rw [e.2.1]
  · have e := h9 { processTranslation camW3 with currTime := 1 }
      (by norm_num [camW3, Translate, mkCamera, updateCameraVectors, OId,
        lookAt.init, translation.init, rotationRP.init, rotationRA.init, spline.init,
        processTranslation, stepTranslation, pctF, fdiv, FP.ge1, FP.toQ])
      (by norm_num [camW3, Translate, mkCamera, updateCameraVectors, OId,
        lookAt.init, translation.init, rotationRP.init, rotationRA.init, spline.init,
        processTranslation, stepTranslation, pctF, fdiv, FP.ge1, FP.toQ])
      (by norm_num [camW3, Translate, mkCamera, updateCameraVectors, OId,
        lookAt.init, translation.init, rotationRP.init, rotationRA.init, spline.init,
        processTranslation, stepTranslation, pctF, fdiv, FP.ge1, FP.toQ])
    exact ⟨e.1, e.2.2⟩

/-- C10: when all six current-command slots are Ended and all six queues
are empty, GetViewMatrix changes nothing but the sampled time (every
per-kind step function returns before touching the pose or the queues),
and the returned matrix is the look-at matrix of the unchanged pose. -/
theorem C10_idle_noop (O : Oracles) (now : ℚ) (cam : Cam)
    (h1 : cam.currBSpline.Ended = true) (h2 : cam.currBezier.Ended = true)
    (h3 : cam.currTranslation.Ended = true) (h4 : cam.currRP.Ended = true)
    (h5 : cam.currRA.Ended = true) (h6 : cam.currLookAt.Ended = true)
    (q1 : cam.bSplineQueue = []) (q2 : cam.bezierQueue = [])
    (q3 : cam.translationQueue = []) (q4 : cam.rotationRPQueue = [])
    (q5 : cam.rotationRAQueue = []) (q6 : cam.lookAtQueue = []) :
    GetViewMatrix O now cam =
      (lookAtM O cam.Position (cam.Position + cam.Front) cam.Up,
        { cam with currTime := now }) := by
  have hP : ProcessTransformations O now cam = { cam with currTime := now } := by
    unfold ProcessTransformations
    unfold ProcessBSPline ProcessBezier processTranslation ProcessRP ProcessRA ProcessLookAt
    simp [h1, h2, h3, h4, h5, h6, q1, q2, q3, q4, q5, q6]
  unfold GetViewMatrix
  rw [hP]

/-- Concrete idle camera for C10. -/
def camW10 : Cam := mkCamera OId ⟨1, 2, 3⟩ ⟨0, 1, 0⟩ ⟨0, 0, -1⟩

/-- Witness for C10 at a concrete idle camera and sample time 3. -/
theorem C10_witness :
    GetViewMatrix OId 3 camW10 =
      (lookAtM OId camW10.Position (camW10.Position + camW10.Front) camW10.Up,
        { camW10 with currTime := 3 }) :=
  C10_idle_noop OId 3 camW10
    (by norm_num [camW10, mkCamera, updateCameraVectors, OId, spline.init])
    (by norm_num [camW10, mkCamera, updateCameraVectors, OId, spline.init])
    (by norm_num [camW10, mkCamera, updateCameraVectors, OId, translation.init])
    (by norm_num [camW10, mkCamera, updateCameraVectors, OId, rotationRP.init])
    (by norm_num [camW10, mkCamera, updateCameraVectors, OId, rotationRA.init])
    (by norm_num [camW10, mkCamera, updateCameraVectors, OId, lookAt.init])
    (by norm_num [camW10, mkCamera, updateCameraVectors, OId])
    (by norm_num [camW10, mkCamera, updateCameraVectors, OId])
    (by norm_num [camW10, mkCamera, updateCameraVectors, OId])
    (by norm_num [camW10, mkCamera, updateCameraVectors, OId])
    (by norm_num [camW10, mkCamera, updateCameraVectors, OId])
    (by norm_num [camW10, mkCamera, updateCameraVectors, OId])

/-- C7: a LookAt command dequeued while the camera already sits at the
command's target position is marked Ended on that very step, the queue
loses exactly that head, and the pose (Position, Front, Right, Up) is left
untouched: the step returns before any direction is normalized or any
interpolation runs. -/
theorem C7_lookat_degenerate (O : Oracles) (cam : Cam) (c : lookAt)
    (rest : List lookAt)
    (hEnd : cam.currLookAt.Ended = true)
    (hq : cam.lookAtQueue = c :: rest)
    (hpos : cam.Position = c.Position) :
    (ProcessLookAt O cam).currLookAt = { c with Ended := true } ∧
    (ProcessLookAt O cam).lookAtQueue = rest ∧
    (ProcessLookAt O cam).Position = cam.Position ∧
    (ProcessLookAt O cam).Front = cam.Front ∧
    (ProcessLookAt O cam).Right = cam.Right ∧
    (ProcessLookAt O cam).Up = cam.Up := by
  refine ⟨?_, ?_, ?_, ?_, ?_, ?_⟩ <;> simp [ProcessLookAt, hEnd, hq, hpos]

/-- Concrete camera for C7: idle at (0,5,3) with a LookAt targeting the
camera's own position queued. -/
def camW7 : Cam :=
  LookAt (mkCamera OId ⟨0, 5, 3⟩ ⟨0, 1, 0⟩ ⟨0, 0, -1⟩) ⟨0, 5, 3⟩ 4

/-- Witness for C7: the degenerate LookAt Ends immediately with no pose
change. -/
theorem C7_witness :
    (ProcessLookAt OId camW7).currLookAt =
      { Position := ⟨0, 5, 3⟩, InicialFront := ⟨0, 0, 0⟩, FinalFront := ⟨0, 0, 0⟩,
        InicialTime := 0, FinalTime := 4, Ended := true } ∧
    (ProcessLookAt OId camW7).lookAtQueue = [] ∧
    (ProcessLookAt OId camW7).Position = camW7.Position ∧
    (ProcessLookAt OId camW7).Front = camW7.Front ∧
    (ProcessLookAt OId camW7).Right = camW7.Right ∧
    (ProcessLookAt OId camW7).Up = camW7.Up := by
  have e := C7_lookat_degenerate OId camW7
    ⟨⟨0, 5, 3⟩, ⟨0, 0, 0⟩, ⟨0, 0, 0⟩, 0, 4, false⟩ []
    (by norm_num [camW7, LookAt, mkCamera, updateCameraVectors, OId, lookAt.init])
    (by norm_num [camW7, LookAt, mkCamera, updateCameraVectors, OId, lookAt.init])
    (by norm_num [camW7, LookAt, mkCamera, updateCameraVectors, OId, lookAt.init,
      Vec3.ext_iff])
  exact e

/-- The translation kind never changes the basis vectors. -/
theorem processTranslation_keeps_basis (cam : Cam) :
    (processTranslation cam).Front = cam.Front ∧
    (processTranslation cam).Right = cam.Right ∧
    (processTranslation cam).Up = cam.Up := by
  unfold processTranslation
  by_cases h : cam.currTranslation.Ended = true
  · cases hq : cam.translationQueue <;> simp [h, hq, stepTranslation]
  · simp [h, stepTranslation]

/-- The Bezier kind never changes the basis vectors. -/
theorem processBezier_keeps_basis (cam : Cam) :
    (ProcessBezier cam).Front = cam.Front ∧
    (ProcessBezier cam).Right = cam.Right ∧
    (ProcessBezier cam).Up = cam.Up := by
  unfold ProcessBezier
  by_cases h : cam.currBezier.Ended = true
  · cases hq : cam.bezierQueue <;> simp [h, hq, stepBezier] <;> split <;> simp
  · simp [h, stepBezier]; split <;> simp

/-- The b-spline kind never changes the basis vectors. -/
theorem processBSpline_keeps_basis (cam : Cam) :
    (ProcessBSPline cam).Front = cam.Front ∧
    (ProcessBSPline cam).Right = cam.Right ∧
    (ProcessBSPline cam).Up = cam.Up := by
  unfold ProcessBSPline
  by_cases h : cam.currBSpline.Ended = true
  · cases hq : cam.bSplineQueue <;> simp [h, hq, stepBSpline] <;> split <;> simp
  · simp [h, stepBSpline]; split <;> simp

/-- C4: after the basis re-orthogonalization that closes every
orientation-changing step, Front, Right and Up are mutually orthogonal
unit vectors, with Right the normalization of Front x WorldUp and Up the
normalization of Right x Front, provided the three normalizations are
exact (nonzero inputs); the position-only kinds (translation, Bezier,
b-spline) do not touch the basis at all. -/
theorem C4_orthonormal_basis (O : Oracles) (cam : Cam)
    (h1 : isNrmOf cam.Front (O.nrm cam.Front))
    (h2 : isNrmOf (cross (O.nrm cam.Front) cam.WorldUp)
            (O.nrm (cross (O.nrm cam.Front) cam.WorldUp)))
    (h3 : isNrmOf
            (cross (O.nrm (cross (O.nrm cam.Front) cam.WorldUp)) (O.nrm cam.Front))
            (O.nrm (cross (O.nrm (cross (O.nrm cam.Front) cam.WorldUp))
              (O.nrm cam.Front)))) :
    (dot (updateCameraVectors O cam).Front (updateCameraVectors O cam).Front = 1 ∧
      dot (updateCameraVectors O cam).Right (updateCameraVectors O cam).Right = 1 ∧
      dot (updateCameraVectors O cam).Up (updateCameraVectors O cam).Up = 1) ∧
    (dot (updateCameraVectors O cam).Front (updateCameraVectors O cam).Right = 0 ∧
      dot (updateCameraVectors O cam).Front (updateCameraVectors O cam).Up = 0 ∧
      dot (updateCameraVectors O cam).Right (updateCameraVectors O cam).Up = 0) ∧
    ((updateCameraVectors O cam).Right =
      O.nrm (cross (updateCameraVectors O cam).Front
        (updateCameraVectors O cam).WorldUp) ∧
    (updateCameraVectors O cam).Up =
      O.nrm (cross (updateCameraVectors O cam).Right
        (updateCameraVectors O cam).Front)) ∧
    (∀ cam2 : Cam,
      (processTranslation cam2).Front = cam2.Front ∧
      (processTranslation cam2).Right = cam2.Right ∧
      (processTranslation cam2).Up = cam2.Up ∧
      (ProcessBezier cam2).Front = cam2.Front ∧
      (ProcessBezier cam2).Right = cam2.Right ∧
      (ProcessBezier cam2).Up = cam2.Up ∧
      (ProcessBSPline cam2).Front = cam2.Front ∧
      (ProcessBSPline cam2).Right = cam2.Right ∧
      (ProcessBSPline cam2).Up = cam2.Up) := by
  obtain ⟨-, hFu⟩ := h1
  obtain ⟨⟨k2, -, hR⟩, hRu⟩ := h2
  obtain ⟨⟨k3, -, hU⟩, hUu⟩ := h3
  refine ⟨⟨hFu, hRu, hUu⟩, ⟨?_, ?_, ?_⟩, ⟨rfl, rfl⟩, ?_⟩
  · show dot (O.nrm cam.Front) (O.nrm (cross (O.nrm cam.Front) cam.WorldUp)) = 0
    rw [hR, dot_smul_right, dot_cross_left, mul_zero]
  · show dot (O.nrm cam.Front)
      (O.nrm (cross (O.nrm (cross (O.nrm cam.Front) cam.WorldUp))
        (O.nrm cam.Front))) = 0
    rw [hU, dot_smul_right, dot_cross_right, mul_zero]
  · show dot (O.nrm (cross (O.nrm cam.Front) cam.WorldUp))
      (O.nrm (cross (O.nrm (cross (O.nrm cam.Front) cam.WorldUp))
        (O.nrm cam.Front))) = 0
    rw [hU, dot_smul_right, dot_cross_left, mul_zero]
  · intro cam2
    obtain ⟨t1, t2, t3⟩ := processTranslation_keeps_basis cam2
    obtain ⟨b1, b2, b3⟩ := processBezier_keeps_basis cam2
    obtain ⟨s1, s2, s3⟩ := processBSpline_keeps_basis cam2
    exact ⟨t1, t2, t3, b1, b2, b3, s1, s2, s3⟩

/-- Concrete camera for C4. -/
def camW4 : Cam := mkCamera OId ⟨0, 0, 0⟩ ⟨0, 1, 0⟩ ⟨0, 0, -1⟩

/-- Witness for C4: at the canonical pose (front (0,0,-1), world up
(0,1,0)) the re-orthogonalized basis is orthonormal. -/
theorem C4_witness :
    (dot (updateCameraVectors OId camW4).Front (updateCameraVectors OId camW4).Front = 1 ∧
      dot (updateCameraVectors OId camW4).Right (updateCameraVectors OId camW4).Right = 1 ∧
      dot (updateCameraVectors OId camW4).Up (updateCameraVectors OId camW4).Up = 1) ∧
    (dot (updateCameraVectors OId camW4).Front (updateCameraVectors OId camW4).Right = 0 ∧
      dot (updateCameraVectors OId camW4).Front (updateCameraVectors OId camW4).Up = 0 ∧
      dot (updateCameraVectors OId camW4).Right (updateCameraVectors OId camW4).Up = 0) := by
  have e := C4_orthonormal_basis OId camW4
    ⟨⟨1, one_pos, by norm_num [camW4, mkCamera, updateCameraVectors, OId,
        cross, Vec3.ext_iff]⟩,
      by norm_num [camW4, mkCamera, updateCameraVectors, OId, cross, dot]⟩
    ⟨⟨1, one_pos, by norm_num [camW4, mkCamera, updateCameraVectors, OId,
        cross, Vec3.ext_iff]⟩,
      by norm_num [camW4, mkCamera, updateCameraVectors, OId, cross, dot]⟩
    ⟨⟨1, one_pos, by norm_num [camW4, mkCamera, updateCameraVectors, OId,
        cross, Vec3.ext_iff]⟩,
      by norm_num [camW4, mkCamera, updateCameraVectors, OId, cross, dot]⟩
  exact ⟨e.1, e.2.1⟩

/-- C5 (amended): a zero-duration command is not completed on the
dequeuing sample: there its progress fraction is 0/0 (NaN in the float
code), which does not compare >= 1, so Ended stays false (and the position
write is ill-defined: NaN in IEEE arithmetic; the embedding keeps the
snapshot).  On the next sample, with now past the dequeue time, the
fraction is positive-over-zero (+inf >= 1), so the command is marked Ended
and the position is set exactly to the target. -/
theorem C5_zero_duration (cam : Cam) (c : translation) (rest : List translation)
    (hEnd : cam.currTranslation.Ended = true)
    (hq : cam.translationQueue = c :: rest)
    (hdur : c.FinalTime = 0)
    (now2 : ℚ) (hlt : cam.currTime < now2) :
    (processTranslation cam).currTranslation.Ended = false ∧
    (processTranslation
      { processTranslation cam with currTime := now2 }).currTranslation.Ended = true ∧
    (processTranslation
      { processTranslation cam with currTime := now2 }).Position = c.Position := by
  have h1 : pctF cam.currTime cam.currTime (c.FinalTime + cam.currTime) = FP.nan := by
    unfold pctF fdiv
    rw [sub_self, hdur]
    norm_num
  have f0 : (processTranslation cam).currTranslation.Ended = false := by
    simp [processTranslation, hEnd, hq, stepTranslation, h1, FP.ge1]
  have f1 : (processTranslation cam).currTranslation.InicialTime = cam.currTime := by
    simp [processTranslation, hEnd, hq, stepTranslation, h1]
  have f2 : (processTranslation cam).currTranslation.FinalTime
      = c.FinalTime + cam.currTime := by
    simp [processTranslation, hEnd, hq, stepTranslation, h1]
  have f3 : (processTranslation cam).currTranslation.InicialPosition = cam.Position := by
    simp [processTranslation, hEnd, hq, stepTranslation, h1]
  have f4 : (processTranslation cam).currTranslation.Position = c.Position := by
    simp [processTranslation, hEnd, hq, stepTranslation, h1]
  have h2 : pctF now2 cam.currTime (c.FinalTime + cam.currTime) = FP.pinf := by
    unfold pctF fdiv
    rw [hdur]
    have hden : (0 : ℚ) + cam.currTime - cam.currTime = 0 := by ring
    rw [hden]
    simp [sub_pos.mpr hlt, sub_ne_zero.mpr (ne_of_gt hlt)]
  refine ⟨f0, ?_, ?_⟩
  · set cam1 := processTranslation cam with hc1
    simp [processTranslation, stepTranslation, f0, f1, f2, h2, FP.ge1]
  · set cam1 := processTranslation cam with hc1
    simp [processTranslation, stepTranslation, f0, f1, f2, f3, f4, h2, FP.ge1,
      Vec3.lerp_one]

/-- Concrete camera for C5: idle at the origin, a zero-duration Translate
to (7,7,7) queued, sampled (and dequeued) at t = 5. -/
def camC5 : Cam :=
  { Translate (mkCamera OId ⟨0, 0, 0⟩ ⟨0, 1, 0⟩ ⟨0, 0, -1⟩) ⟨7, 7, 7⟩ 0 with
    currTime := 5 }

/-- C5 counterexample: on the dequeuing sample the zero-duration command's
progress fraction is 0/0, which does not compare >= 1 (it is NaN in the
float code), so the command is NOT marked Ended on that first step and the
position is not snapped to the target (the float code would write NaN),
contrary to the claim. -/
theorem C5_counterexample :
    (processTranslation camC5).currTranslation.Ended = false ∧
    (processTranslation camC5).Position ≠ ⟨7, 7, 7⟩ := by
  constructor <;>
    norm_num [camC5, Translate, mkCamera, updateCameraVectors, OId, translation.init,
      processTranslation, stepTranslation, pctF, fdiv, FP.ge1, FP.toQ, Vec3.ext_iff]

/-- Witness for C5 (amended): the zero-duration command stays active on
the dequeue sample at t = 5 and completes exactly at the t = 6 sample,
snapping to (7,7,7). -/
theorem C5_witness :
    (processTranslation camC5).currTranslation.Ended = false ∧
    (processTranslation
      { processTranslation camC5 with currTime := 6 }).currTranslation.Ended = true ∧
    (processTranslation
      { processTranslation camC5 with currTime := 6 }).Position = ⟨7, 7, 7⟩ := by
  have e := C5_zero_duration camC5
    ⟨⟨0, 0, 0⟩, ⟨7, 7, 7⟩, 0, 0, false⟩ []
    (by norm_num [camC5, Translate, mkCamera, updateCameraVectors, OId,
      translation.init])
    (by norm_num [camC5, Translate, mkCamera, updateCameraVectors, OId,
      translation.init])
    (by norm_num) 6
    (by norm_num [camC5, Translate, mkCamera, updateCameraVectors, OId])
  exact ⟨e.1, e.2.1, e.2.2⟩

/-- Row-vector application of the glm rotation matrix fixes the (unit)
axis. -/
theorem linApp_glmRotMat_axis (c s : ℚ) (a : Vec3) (ha : dot a a = 1) :
    linApp (glmRotMat c s a) a = a := by
  have ha2 : a.x * a.x + a.y * a.y + a.z * a.z = 1 := ha
  simp [linApp, rowApp, glmRotMat, dot4, xyz, Vec3.ext_iff]
  refine ⟨?_, ?_, ?_⟩
  · linear_combination ((1 - c) * a.x) * ha2
  · linear_combination ((1 - c) * a.y) * ha2
  · linear_combination ((1 - c) * a.z) * ha2

/-- Row-vector application of the glm rotation matrix preserves dot
products when c, s are a cosine/sine pair and the axis is unit: the
transformation is a rigid rotation determined by the angle and the
axis. -/
theorem linApp_glmRotMat_dot (c s : ℚ) (a : Vec3) (hcs : c ^ 2 + s ^ 2 = 1)
    (ha : dot a a = 1) (v w : Vec3) :
    dot (linApp (glmRotMat c s a) v) (linApp (glmRotMat c s a) w) = dot v w := by
  have ha2 : a.x * a.x + a.y * a.y + a.z * a.z = 1 := ha
  simp [linApp, rowApp, glmRotMat, dot4, xyz, dot]
  linear_combination
    ((v.x * w.x + v.y * w.y + v.z * w.z) -
        (v.x * a.x + v.y * a.y + v.z * a.z) * (a.x * w.x + a.y * w.y + a.z * w.z)) * hcs +
      (s ^ 2 * (v.x * w.x + v.y * w.y + v.z * w.z) +
        (1 - c) ^ 2 * (v.x * a.x + v.y * a.y + v.z * a.z) *
          (a.x * w.x + a.y * w.y + a.z * w.z)) * ha2

/-- C6: every ProcessRA step writes Position back to the dequeue-time
snapshot (the rotated position is computed and then overwritten), so at
clamped progress 1 the original position is restored while Front becomes
the (re-normalized) image of the snapshot front under the glm rotation
matrix built from the command's full angle and axis, applied in the code's
row-vector convention; that application fixes the (unit) axis and
preserves dot products, i.e. the orientation change is the rigid rotation
determined by the command's angle about the given axis. -/
theorem C6_rotate_in_place (O : Oracles) (cam : Cam) (c s : ℚ) (a : Vec3)
    (hact : cam.currRA.Ended = false)
    (hlt : cam.currRA.InicialTime < cam.currRA.FinalTime)
    (hge : 1 ≤ (cam.currTime - cam.currRA.InicialTime) /
        (cam.currRA.FinalTime - cam.currRA.InicialTime))
    (hrot : O.rot cam.currRA.Angle cam.currRA.Axis = glmRotMat c s a)
    (hcs : c ^ 2 + s ^ 2 = 1) (ha : dot a a = 1) :
    (∀ (O2 : Oracles) (cam2 : Cam), cam2.currRA.Ended = false →
        (ProcessRA O2 cam2).Position = cam2.currRA.InicialPosition) ∧
    (∀ (O2 : Oracles) (cam2 : Cam) (c2 : rotationRA) (rest : List rotationRA),
        cam2.currRA.Ended = true → cam2.rotationRAQueue = c2 :: rest →
        (ProcessRA O2 cam2).Position = cam2.Position) ∧
    (ProcessRA O cam).currRA.Ended = true ∧
    (ProcessRA O cam).Front =
      O.nrm (linApp (glmRotMat c s a) cam.currRA.InicialFront) ∧
    linApp (glmRotMat c s a) a = a ∧
    (∀ v w : Vec3,
      dot (linApp (glmRotMat c s a) v) (linApp (glmRotMat c s a) w) = dot v w) := by
  have hp := pctF_of_lt cam.currTime hlt
  refine ⟨?_, ?_, ?_, ?_, linApp_glmRotMat_axis c s a ha,
    fun v w => linApp_glmRotMat_dot c s a hcs ha v w⟩
  · intro O2 cam2 h
    simp [ProcessRA, h, stepRA, updateCameraVectors]
  · intro O2 cam2 c2 rest h hq
    simp [ProcessRA, h, hq, stepRA, updateCameraVectors]
  · simp [ProcessRA, hact, stepRA, hp, FP.ge1, hge, updateCameraVectors]
  · simp [ProcessRA, hact, stepRA, hp, FP.ge1, hge, updateCameraVectors, mul_one,
      hrot, rowApp_point_sub]

/-- Constant oracle whose rotation matrix is the rational rotation with
cosine 3/5 and sine 4/5 about the z axis. -/
def O6 : Oracles := ⟨fun v => v, fun _ _ => glmRotMat (3 / 5) (4 / 5) ⟨0, 0, 1⟩⟩

/-- Concrete camera for C6: an active rotate-about-axis command past its
deadline. -/
def camW6 : Cam :=
  { mkCamera O6 ⟨1, 2, 3⟩ ⟨0, 1, 0⟩ ⟨0, 0, -1⟩ with
    currTime := 2,
    currRA := ⟨⟨0, 0, 1⟩, 2, 0, 1, ⟨0, 0, -1⟩, ⟨1, 2, 3⟩, ⟨0, 1, 0⟩, false⟩ }

/-- Witness for C6: at clamped progress 1 the position snapshot (1,2,3) is
restored, the command Ends, and Front is the rotated snapshot front. -/
theorem C6_witness :
    (ProcessRA O6 camW6).Position = camW6.currRA.InicialPosition ∧
    (ProcessRA O6 camW6).currRA.Ended = true ∧
    (ProcessRA O6 camW6).Front =
      O6.nrm (linApp (glmRotMat (3 / 5) (4 / 5) ⟨0, 0, 1⟩)
        camW6.currRA.InicialFront) := by
  have e := C6_rotate_in_place O6 camW6 (3 / 5) (4 / 5) ⟨0, 0, 1⟩
    (by norm_num [camW6, mkCamera, updateCameraVectors, O6, rotationRA.init])
    (by norm_num [camW6, mkCamera, updateCameraVectors, O6, rotationRA.init])
    (by norm_num [camW6, mkCamera, updateCameraVectors, O6, rotationRA.init])
    rfl (by norm_num) (by norm_num [dot])
  exact ⟨e.1 O6 camW6
    (by norm_num [camW6, mkCamera, updateCameraVectors, O6, rotationRA.init]),
    e.2.2.1, e.2.2.2.1⟩

/-- C8 (amended): in the vector variant, an active LookAt command's step
sets Front to the re-normalized component-wise interpolation between the
dequeue-time snapshot front and the stamped final front, and a
(non-degenerate) dequeue stamps the final front as the normalization of
target minus position-at-dequeue; in the yaw/pitch variant, however, the
step never interpolates: it unconditionally marks the command Ended and
jumps Pitch/Yaw to their final values (the interpolation assignments in
that source sit after an early return and are dead code). -/
theorem C8_lookat_forms :
    (∀ (O : Oracles) (cam : Cam), cam.currLookAt.Ended = false →
      cam.currLookAt.InicialTime < cam.currLookAt.FinalTime →
      ¬ 1 ≤ (cam.currTime - cam.currLookAt.InicialTime) /
            (cam.currLookAt.FinalTime - cam.currLookAt.InicialTime) →
      (ProcessLookAt O cam).Front =
        O.nrm (cam.currLookAt.InicialFront +
          ((cam.currTime - cam.currLookAt.InicialTime) /
            (cam.currLookAt.FinalTime - cam.currLookAt.InicialTime)) •
          (cam.currLookAt.FinalFront - cam.currLookAt.InicialFront))) ∧
    (∀ (O : Oracles) (cam : Cam) (c : lookAt) (rest : List lookAt),
      cam.currLookAt.Ended = true → cam.lookAtQueue = c :: rest →
      cam.Position ≠ c.Position →
      (ProcessLookAt O cam).currLookAt.FinalFront =
        O.nrm (c.Position - cam.Position) ∧
      (ProcessLookAt O cam).currLookAt.InicialFront = cam.Front) ∧
    (∀ (A : YP.Oracle) (cam : YP.Cam), cam.currLookAt.Ended = false →
      (YP.processLookAt A cam).Pitch = cam.currLookAt.FinalPitch ∧
      (YP.processLookAt A cam).Yaw = cam.currLookAt.FinalYaw ∧
      (YP.processLookAt A cam).currLookAt.Ended = true) := by
  refine ⟨?_, ?_, ?_⟩
  · intro O cam hact hlt hn1
    have hp := pctF_of_lt cam.currTime hlt
    simp [ProcessLookAt, hact, stepLookAt, hp, FP.ge1, hn1, FP.toQ,
      updateCameraVectors]
  · intro O cam c rest hEnd hq hne
    constructor <;> simp [ProcessLookAt, hEnd, hq, hne, stepLookAt,
      updateCameraVectors]
  · intro A cam hact
    refine ⟨?_, ?_, ?_⟩ <;> simp [YP.processLookAt, hact, YP.stepLookAt] <;>
      split <;> simp

/-- Concrete yaw/pitch camera with an active LookAt command at progress
1/2 (InicialPitch 0, FinalPitch 10, InicialYaw 0, FinalYaw 20). -/
def camC8 : YP.Cam :=
  { Position := ⟨0, 0, 0⟩, Front := ⟨0, 0, -1⟩, Yaw := 0, Pitch := 0,
    currTime := 1, lookAtQueue := [],
    currLookAt := ⟨⟨1, 1, 1⟩, 0, 2, 0, 0, 10, 20, false⟩ }

/-- Constant stamping oracle for the yaw/pitch variant. -/
def A8 : YP.Oracle := ⟨fun _ _ => (0, 0)⟩

/-- C8 counterexample: at progress 1/2 the yaw/pitch variant sets Pitch to
FinalPitch = 10, not to the claimed interpolation
InicialPitch + (1/2) * (FinalPitch - InicialPitch) = 5. -/
theorem C8_counterexample :
    (YP.processLookAt A8 camC8).Pitch ≠
      camC8.currLookAt.InicialPitch +
        ((camC8.currTime - camC8.currLookAt.InicialTime) /
          (camC8.currLookAt.FinalTime - camC8.currLookAt.InicialTime)) *
        (camC8.currLookAt.FinalPitch - camC8.currLookAt.InicialPitch) := by
  norm_num [camC8, A8, YP.processLookAt, YP.stepLookAt, pctF, fdiv, FP.ge1, FP.toQ]

/-- Concrete vector-variant camera with an active LookAt at progress
1/2. -/
def camW8 : Cam :=
  { mkCamera OId ⟨0, 0, 0⟩ ⟨0, 1, 0⟩ ⟨0, 0, -1⟩ with
    currTime := 1,
    currLookAt := ⟨⟨4, 0, 0⟩, ⟨0, 0, -1⟩, ⟨1, 0, 0⟩, 0, 2, false⟩ }

/-- Witness for C8 (amended): the vector variant interpolates Front while
the yaw/pitch variant jumps to the final angles and Ends. -/
theorem C8_witness :
    (ProcessLookAt OId camW8).Front =
      OId.nrm (camW8.currLookAt.InicialFront +
        ((camW8.currTime - camW8.currLookAt.InicialTime) /
          (camW8.currLookAt.FinalTime - camW8.currLookAt.InicialTime)) •
        (camW8.currLookAt.FinalFront - camW8.currLookAt.InicialFront)) ∧
    (YP.processLookAt A8 camC8).Pitch = camC8.currLookAt.FinalPitch ∧
    (YP.processLookAt A8 camC8).currLookAt.Ended = true := by
  obtain ⟨h1, -, h3⟩ := C8_lookat_forms
  have e1 := h1 OId camW8
    (by norm_num [camW8, mkCamera, updateCameraVectors, OId, lookAt.init])
    (by norm_num [camW8, mkCamera, updateCameraVectors, OId, lookAt.init])
    (by norm_num [camW8, mkCamera, updateCameraVectors, OId, lookAt.init])
  have e3 := h3 A8 camC8 (by norm_num [camC8])
  exact ⟨e1, e3.1, e3.2.2⟩

/-- The Catmull-Rom piece with a doubled first point starts exactly at
that point, and the piece with a doubled last point ends exactly there. -/
theorem catmullRom_endpoints (q0 q1 q2 q3 : Vec3) :
    catmullRom q0 q0 q1 q2 0 = q0 ∧ catmullRom q1 q2 q3 q3 1 = q3 := by
  constructor <;> (ext <;> simp [catmullRom] <;> ring)

/-- C9 (amended): an active b-spline command below progress 1 follows the
piecewise Catmull-Rom evaluation whose branch boundaries are the source's
decimal literals kA = 0.333333333 and kB = 0.666666666 (not exactly one
third and two thirds); the first piece at parameter 0 is exactly p0 and
the last piece at parameter 1 is exactly p3, and on reaching progress 1
the command Ends with the position snapped exactly to p3.  (Because the
left piece's parameter only reaches 3 * kA = 0.999999999 < 1 at the
boundary, the adjacent pieces do not agree exactly there; see the
counterexample.) -/
theorem C9_bspline_piecewise (cam : Cam)
    (hact : cam.currBSpline.Ended = false)
    (hlt : cam.currBSpline.InicialTime < cam.currBSpline.Time)
    (hn1 : ¬ 1 ≤ (cam.currTime - cam.currBSpline.InicialTime) /
        (cam.currBSpline.Time - cam.currBSpline.InicialTime)) :
    ((ProcessBSPline cam).Position =
      if (cam.currTime - cam.currBSpline.InicialTime) /
            (cam.currBSpline.Time - cam.currBSpline.InicialTime) ≤ kA then
        catmullRom cam.currBSpline.p0 cam.currBSpline.p0 cam.currBSpline.p1
          cam.currBSpline.p2
          (3 * ((cam.currTime - cam.currBSpline.InicialTime) /
            (cam.currBSpline.Time - cam.currBSpline.InicialTime)))
      else if (cam.currTime - cam.currBSpline.InicialTime) /
            (cam.currBSpline.Time - cam.currBSpline.InicialTime) ≤ kB then
        catmullRom cam.currBSpline.p0 cam.currBSpline.p1 cam.currBSpline.p2
          cam.currBSpline.p3
          (3 * ((cam.currTime - cam.currBSpline.InicialTime) /
            (cam.currBSpline.Time - cam.currBSpline.InicialTime) - kA))
      else
        catmullRom cam.currBSpline.p1 cam.currBSpline.p2 cam.currBSpline.p3
          cam.currBSpline.p3
          (3 * ((cam.currTime - cam.currBSpline.InicialTime) /
            (cam.currBSpline.Time - cam.currBSpline.InicialTime) - kB))) ∧
    (∀ q0 q1 q2 q3 : Vec3,
      catmullRom q0 q0 q1 q2 0 = q0 ∧ catmullRom q1 q2 q3 q3 1 = q3) ∧
    (∀ cam2 : Cam, cam2.currBSpline.Ended = false →
      cam2.currBSpline.InicialTime < cam2.currBSpline.Time →
      1 ≤ (cam2.currTime - cam2.currBSpline.InicialTime) /
          (cam2.currBSpline.Time - cam2.currBSpline.InicialTime) →
      (ProcessBSPline cam2).currBSpline.Ended = true ∧
      (ProcessBSPline cam2).Position = cam2.currBSpline.p3) := by
  have hp := pctF_of_lt cam.currTime hlt
  refine ⟨?_, catmullRom_endpoints, ?_⟩
  · simp [ProcessBSPline, hact, stepBSpline, hp, FP.ge1, hn1, FP.toQ]
  · intro cam2 hact2 hlt2 hge2
    have hp2 := pctF_of_lt cam2.currTime hlt2
    constructor <;> simp [ProcessBSPline, hact2, stepBSpline, hp2, FP.ge1, hge2]

/-- Concrete camera for C9: an active b-spline command over the collinear
control points (0,0,0), (3,0,0), (6,0,0), (9,0,0) sampled at progress
exactly 1/3. -/
def camC9 : Cam :=
  { mkCamera OId ⟨0, 0, 0⟩ ⟨0, 1, 0⟩ ⟨0, 0, -1⟩ with
    currTime := 1,
    currBSpline := ⟨⟨0, 0, 0⟩, ⟨3, 0, 0⟩, ⟨6, 0, 0⟩, ⟨9, 0, 0⟩, 0, 3, false⟩ }

/-- C9 counterexample: at progress exactly 1/3 the claim prescribes the
first tuple at parameter 3 * (1/3) = 1, i.e. exactly p1; the code's branch
constant 0.333333333 is smaller than 1/3, so it evaluates the second tuple
at parameter 10^-9 instead, whose value differs from p1 — the claimed
interval assignment (and exact continuity at the claimed knot) fails. -/
theorem C9_counterexample :
    (ProcessBSPline camC9).Position ≠
      catmullRom camC9.currBSpline.p0 camC9.currBSpline.p0 camC9.currBSpline.p1
        camC9.currBSpline.p2
        (3 * ((camC9.currTime - camC9.currBSpline.InicialTime) /
          (camC9.currBSpline.Time - camC9.currBSpline.InicialTime))) := by
  norm_num [camC9, mkCamera, updateCameraVectors, OId, spline.init, ProcessBSPline,
    stepBSpline, pctF, fdiv, FP.ge1, FP.toQ, kA, kB, catmullRom, Vec3.ext_iff]

/-- Witness for C9 (amended): at progress 1/4 the position is the first
Catmull-Rom piece at parameter 3/4, and the first piece at parameter 0 is
exactly p0. -/
theorem C9_witness :
    (ProcessBSPline { camC9 with currTime := 3 / 4 }).Position =
      catmullRom camC9.currBSpline.p0 camC9.currBSpline.p0 camC9.currBSpline.p1
        camC9.currBSpline.p2 (3 * (1 / 4 : ℚ)) ∧
    catmullRom camC9.currBSpline.p0 camC9.currBSpline.p0 camC9.currBSpline.p1
      camC9.currBSpline.p2 0 = camC9.currBSpline.p0 := by
  have e := C9_bspline_piecewise { camC9 with currTime := 3 / 4 }
    (by norm_num [camC9, mkCamera, updateCameraVectors, OId, spline.init])
    (by norm_num [camC9, mkCamera, updateCameraVectors, OId, spline.init])
    (by norm_num [camC9, mkCamera, updateCameraVectors, OId, spline.init])
  constructor
  · rw [e.1]
    norm_num [camC9, mkCamera, updateCameraVectors, OId, spline.init, kA,
      catmullRom, Vec3.ext_iff]
  · exact (e.2.1 camC9.currBSpline.p0 camC9.currBSpline.p1 camC9.currBSpline.p2
      camC9.currBSpline.p3).1
